import Mathlib

/-!
Verification development for the super-sniffle Cypher query builder.

This file gives a shallow embedding, in Lean 4, of the core of the
`super_sniffle` Python package: the expression algebra
(`ast/expressions/`), the label algebra (`ast/patterns/base_label_expr.py`),
the pattern algebra (`ast/patterns/`), the lazy identifier allocator
(`ast/patterns/node_pattern.py`) and the clause / query-assembly engine
(`clauses/`, `api.py`).  Every definition is translated from the source
module named in its doc comment.  Theorems at the end of the file settle
the specification claims against this embedding.

Modelling conventions:
* Python `None` / optional fields become `Option`.
* Python exceptions become `Except PyErr`; `PyErr` distinguishes the
  exception class (`TypeError`, `ValueError`, `IndexError`).
* Python strings are Lean `String`s; single quotes and braces inside
  string literals are built from character codes (`squote`, `obrace`,
  `cbrace`) purely for lexical hygiene.
* The process-wide lazy-identifier counter and the per-instance
  `_lazy_variable` slot (the only mutable state in the package) are
  modelled by explicit state passing over a heap of node instances.
-/

namespace SuperSniffle

/-- A single-quote character as a string (Python `'`). -/
def squote : String := String.singleton (Char.ofNat 39)

/-- A backslash character as a string. -/
def bslash : String := String.singleton (Char.ofNat 92)

/-- An opening curly brace as a string. -/
def obrace : String := String.singleton (Char.ofNat 123)

/-- A closing curly brace as a string. -/
def cbrace : String := String.singleton (Char.ofNat 125)

/-- A double-quote character as a string. -/
def dquote : String := String.singleton (Char.ofNat 34)

/-- A backtick character as a string. -/
def btick : String := String.singleton (Char.ofNat 96)

/-- Python `str.replace(target, rep)` restricted to a single-character
target, the only form the package uses (`literal.py`, `formatting_utils.py`
replace one character at a time). -/
def pyReplaceChar (s : String) (target : Char) (rep : String) : String :=
  ⟨s.data.foldr (fun ch acc => if ch = target then rep.data ++ acc else ch :: acc) []⟩

/-- The exception classes raised by the modelled code paths. -/
inductive PyErr where
  | typeError
  | valueError
  | indexError
deriving DecidableEq, Repr

/-- Python scalar values as they occur in `Literal` and in pattern
property maps: `str`, `int`, `bool` and `None`.  (The claims under
verification never build `list`/`dict`/`float` literals.) -/
inductive PyVal where
  | str (s : String)
  | int (n : Int)
  | bool (b : Bool)
  | none
deriving DecidableEq, Repr

/-- `Literal.to_cypher` from `ast/expressions/literal.py` — the module that
is actually imported at run time (the package directory
`ast/expressions/` shadows the superseded flat module `ast/expressions.py`).
Strings are wrapped in DOUBLE quotes with embedded double quotes escaped;
single quotes are left untouched. -/
def Literal.to_cypher : PyVal → String
  | .str s => dquote ++ pyReplaceChar s (Char.ofNat 34) (bslash ++ dquote) ++ dquote
  | .int n => toString n
  | .bool b => if b then "true" else "false"
  | .none => "null"

/-- `Literal.to_cypher` of the superseded flat module
`ast/expressions.py` (shadowed by the package, hence dead code at run
time): single-quoted strings with embedded single quotes escaped by a
backslash.  Kept here because the spec and the package's own unit tests
describe THIS behaviour. -/
def LiteralSuperseded.to_cypher : PyVal → String
  | .str s => squote ++ pyReplaceChar s (Char.ofNat 39) (bslash ++ squote) ++ squote
  | .int n => toString n
  | .bool b => if b then "true" else "false"
  | .none => "null"

/-- `format_value` from `ast/formatting_utils.py` (used by
`node_pattern.py`) restricted to the scalar values of `PyVal`; the copy in
`ast/patterns/utils.py` (used by `relationship_pattern.py`) behaves
identically on these values. -/
def format_value : PyVal → String
  | .str s => dquote ++ pyReplaceChar s (Char.ofNat 34) (bslash ++ dquote) ++ dquote
  | .int n => toString n
  | .bool b => if b then "true" else "false"
  | .none => "null"

/-! ## Expression algebra (`ast/expressions/`) -/

/-- The expression AST of `ast/expressions/`: `Property`, `Variable`,
`Parameter`, `Literal`, `ComparisonExpression`, `LogicalExpression`,
`NotExpression`.  The extra constructor `raw` models a plain Python `str`
used where the code allows `Any` (e.g. the right operand `"NULL"` built by
`is_null`). -/
inductive Expr where
  | property (varName name : String)
  | var (name : String)
  | param (name : String)
  | lit (value : PyVal)
  | comparison (left : Expr) (op : String) (right : Expr)
  | logical (left : Expr) (op : String) (right : Expr)
  | notE (inner : Expr)
  | raw (s : String)
deriving DecidableEq, Repr

/-- `to_cypher` across `ast/expressions/*.py`.  A `raw` operand has no
`to_cypher` attribute in Python, so `ComparisonExpression.to_cypher`
falls back to `str(...)`; rendering `raw s` as `s` reproduces that. -/
def Expr.to_cypher : Expr → String
  | .property v n => v ++ "." ++ n
  | .var n => n
  | .param n => "$" ++ n
  | .lit v => Literal.to_cypher v
  | .comparison l op r => l.to_cypher ++ " " ++ op ++ " " ++ r.to_cypher
  | .logical l op r => "(" ++ l.to_cypher ++ ") " ++ op ++ " (" ++ r.to_cypher ++ ")"
  | .notE e => "NOT (" ++ e.to_cypher ++ ")"
  | .raw s => s

/-- `Expression.__and__` (`expression.py`): builds `LogicalExpression(self, "AND", other)`. -/
def Expr.andE (a b : Expr) : Expr := .logical a "AND" b

/-- `Expression.__or__` (`expression.py`): builds `LogicalExpression(self, "OR", other)`. -/
def Expr.orE (a b : Expr) : Expr := .logical a "OR" b

/-- `Expression.__invert__` (`expression.py`): builds `NotExpression(self)`. -/
def Expr.invertE (a : Expr) : Expr := .notE a

/-- Whether a value is an instance of the Python `Expression` base class
(everything except a plain `str`). -/
def Expr.isExpression : Expr → Bool
  | .raw _ => false
  | _ => true

/-- Whether an expression is one of the identifier-or-value leaves. -/
def Expr.isLeaf : Expr → Bool
  | .property _ _ | .var _ | .param _ | .lit _ => true
  | _ => false

/-- Truth value of the Python comparison `a == b` between two modelled
values, following CPython dispatch exactly:
`type(a).__eq__(a, b)` first, the reflected `type(b).__eq__(b, a)` if the
first returns `NotImplemented`, identity comparison (false for the
distinct instances modelled here) as the final fallback.
`Property.__eq__` / `Variable.__eq__` (`property.py`, `variable.py`)
unconditionally return a (truthy) `ComparisonExpression`;
`Expression.__eq__` (`expression.py`, inherited by `Parameter` and
`Literal`) returns a truthy `ComparisonExpression` when the other operand
is an `Expression` and `NotImplemented` otherwise; the composite classes
`ComparisonExpression`, `LogicalExpression`, `NotExpression` use the
`@dataclass`-generated `__eq__`, which requires the identical class and
then compares the field tuples element-wise with `==` (truthiness of each
element comparison); `str.__eq__` is genuine string equality. -/
def truthyEq : Expr → Expr → Bool
  | .property _ _, _ => true
  | .var _, _ => true
  | .param _, b => b.isExpression
  | .lit _, b => b.isExpression
  | .comparison l op r, b =>
    match b with
    | .comparison l' op' r' => truthyEq l l' && (op == op') && truthyEq r r'
    | .property _ _ | .var _ => true
    | .param _ | .lit _ => true
    | _ => false
  | .logical l op r, b =>
    match b with
    | .logical l' op' r' => truthyEq l l' && (op == op') && truthyEq r r'
    | .property _ _ | .var _ => true
    | .param _ | .lit _ => true
    | _ => false
  | .notE e, b =>
    match b with
    | .notE e' => truthyEq e e'
    | .property _ _ | .var _ => true
    | .param _ | .lit _ => true
    | _ => false
  | .raw s, b =>
    match b with
    | .raw t => s == t
    | .property _ _ | .var _ => true
    | _ => false

/-! ## Label algebra (`ast/patterns/base_label_expr.py`) -/

/-- `BaseLabelExpr` and its subclasses `LabelAtom`, `LabelAnd`, `LabelOr`,
`LabelNot`. -/
inductive LabelExpr where
  | atom (label : String)
  | andL (left right : LabelExpr)
  | orL (left right : LabelExpr)
  | notL (inner : LabelExpr)
deriving DecidableEq, Repr

/-- `__str__` of the label classes: an atom is its text, `LabelAnd` is
`(left & right)`, `LabelOr` is `(left | right)`, `LabelNot` is `!inner`. -/
def LabelExpr.str : LabelExpr → String
  | .atom s => s
  | .andL l r => "(" ++ l.str ++ " & " ++ r.str ++ ")"
  | .orL l r => "(" ++ l.str ++ " | " ++ r.str ++ ")"
  | .notL e => "!" ++ e.str

/-- The normalised `labels` field of a `NodePattern` after
`__post_init__`: either a tuple of plain strings or a single
`BaseLabelExpr`. -/
inductive LabelsVal where
  | strings (ls : List String)
  | expr (e : LabelExpr)
deriving DecidableEq, Repr

/-- One element of the `labels` tuple as passed by a caller: a plain
string or a label expression. -/
inductive LabelItem where
  | str (s : String)
  | expr (e : LabelExpr)
deriving DecidableEq, Repr

/-- The raw `labels` argument of `NodePattern(...)`: a single string, a
tuple, or a bare `BaseLabelExpr`. -/
inductive LabelsInput where
  | single (s : String)
  | tuple (items : List LabelItem)
  | expr (e : LabelExpr)
deriving DecidableEq, Repr

/-- The labels part of `NodePattern.__post_init__`
(`ast/patterns/node_pattern.py`): a single string becomes a one-element
tuple; a tuple of strings is kept; a tuple containing any label
expression converts every string member to `L(item)` and folds the
members left-to-right with `&`; a bare expression is left unchanged. -/
def normalizeLabels : LabelsInput → LabelsVal
  | .single s => .strings [s]
  | .tuple items =>
    if items.all (fun it => match it with | .str _ => true | .expr _ => false) then
      .strings (items.map (fun it => match it with | .str s => s | .expr e => e.str))
    else
      match items.map (fun it => match it with | .str s => LabelExpr.atom s | .expr e => e) with
      | [] => .strings []
      | h :: t => .expr (t.foldl .andL h)
  | .expr e => .expr e

/-! ## Pattern algebra (`ast/patterns/`) -/

/-- `NodePattern` (`ast/patterns/node_pattern.py`).  `varName` models the
`variable` field (a Lean keyword forbids the original spelling);
`lazyVariable` models the `_lazy_variable` slot assigned at most once by
`_ensure_variable`. -/
structure NodePat where
  varName : Option String := none
  labels : LabelsVal := .strings []
  properties : List (String × PyVal) := []
  condition : Option Expr := none
  maxDegree : Option Int := none
  degreeDirection : Option String := none
  degreeRelType : Option String := none
  lazyVariable : Option String := none
deriving DecidableEq, Repr

/-- `RelationshipPattern` (`ast/patterns/relationship_pattern.py`).
`direction` is one of `"<"`, `">"`, `"-"`; `type` is `None` or the
pipe-joined type string. -/
structure RelPat where
  direction : String := "-"
  varName : Option String := none
  type : Option String := none
  properties : List (String × PyVal) := []
  condition : Option Expr := none
deriving DecidableEq, Repr

/-- A materialised path element: `PathPattern.elements` only ever holds
nodes and relationships after `__post_init__` (nested paths are spliced
away). -/
inductive PatternElem where
  | node (n : NodePat)
  | rel (r : RelPat)
deriving DecidableEq, Repr

/-- `PathPattern` (`ast/patterns/path_pattern.py`) after construction. -/
structure PathPat where
  elements : List PatternElem
  varName : Option String := none
  condition : Option Expr := none
deriving DecidableEq, Repr

/-- An element as supplied to `PathPattern(...)` or `path(...)`: nodes,
relationships, or whole paths (to be flattened). -/
inductive PathInput where
  | node (n : NodePat)
  | rel (r : RelPat)
  | path (p : PathPat)
deriving DecidableEq, Repr

/-- The anonymous undirected relationship `RelationshipPattern(direction="-")`
inserted between adjacent nodes. -/
def anonRel : RelPat := {}

/-- First half of `PathPattern.__post_init__`: splice the elements of any
`PathPattern` supplied as an element. -/
def flattenInputs : List PathInput → List PatternElem
  | [] => []
  | .node n :: rest => .node n :: flattenInputs rest
  | .rel r :: rest => .rel r :: flattenInputs rest
  | .path p :: rest => p.elements ++ flattenInputs rest

/-- Second half of `PathPattern.__post_init__`: walk the flattened list
and insert `anonRel` between every adjacent pair of nodes. -/
def insertImplicit : List PatternElem → List PatternElem
  | [] => []
  | [e] => [e]
  | .node n :: .node m :: rest => .node n :: .rel anonRel :: insertImplicit (.node m :: rest)
  | e :: e2 :: rest => e :: insertImplicit (e2 :: rest)

/-- `PathPattern(elements, variable, condition)` including
`__post_init__`. -/
def mkPathPattern (elements : List PathInput) (varName : Option String := none)
    (condition : Option Expr := none) : PathPat :=
  { elements := insertImplicit (flattenInputs elements), varName := varName,
    condition := condition }

/-- `path(*elements)` (`api.py`): flattens `PathPattern` arguments one
level and hands the result to the `PathPattern` constructor (whose
`__post_init__` flattens again — a no-op the second time — and inserts
implicit relationships). -/
def pathFn (elements : List PathInput) : PathPat :=
  mkPathPattern ((flattenInputs elements).map
    (fun e => match e with | .node n => PathInput.node n | .rel r => PathInput.rel r))

/-- Python truthiness of an optional string (`if x:`): false for `None`
and for the empty string. -/
def optStrTruthy : Option String → Bool
  | some s => !(s == "")
  | none => false

/-- `effective_variable` in `NodePattern.to_cypher`: the explicit
`variable` if it `is not None`, else the `_lazy_variable` if assigned. -/
def NodePat.effectiveVar (n : NodePat) : Option String :=
  match n.varName with
  | some v => some v
  | none => n.lazyVariable

/-- Python truthiness of the `labels` field: an empty tuple is falsy, a
non-empty tuple and any `BaseLabelExpr` object are truthy. -/
def LabelsVal.truthy : LabelsVal → Bool
  | .strings ls => !ls.isEmpty
  | .expr _ => true

/-- The rendered label text of `NodePattern.to_cypher`: a
`BaseLabelExpr` renders via `str(...)` and is wrapped in backticks when
its text contains any of the operator characters `&`, `|`, `!`; a tuple of
strings is colon-joined. -/
def LabelsVal.render : LabelsVal → String
  | .expr e =>
    let s := e.str
    if s.data.any (fun c => c = Char.ofNat 38 || c = Char.ofNat 124 || c = Char.ofNat 33) then
      btick ++ s ++ btick
    else s
  | .strings ls => String.intercalate ":" ls

/-- The ` {key: value, ...}` property block shared by node and
relationship rendering (`", ".join(f"{k}: {format_value(v)}")`). -/
def renderProps (props : List (String × PyVal)) : String :=
  String.intercalate ", " (props.map (fun kv => kv.1 ++ ": " ++ format_value kv.2))

/-- `NodePattern.to_cypher` (`ast/patterns/node_pattern.py`).  The degree
constraint renders an `apoc.node.degree*` call on the effective variable;
`_validate_degree_params` guarantees at construction time that a variable
is present whenever `max_degree` is set, so the `getD ""` fallback for the
variable is unreachable on validly constructed nodes. -/
def NodePat.to_cypher (n : NodePat) : String :=
  let effVar := n.effectiveVar
  let labelParts : List String :=
    (if optStrTruthy effVar then [effVar.getD ""] else []) ++
    (if n.labels.truthy then [n.labels.render] else [])
  let labelStr :=
    if !labelParts.isEmpty then
      if optStrTruthy effVar then String.intercalate ":" labelParts
      else ":" ++ String.intercalate ":" labelParts
    else ""
  let propertiesStr :=
    if !n.properties.isEmpty then " " ++ obrace ++ renderProps n.properties ++ cbrace
    else ""
  let conditions : List String :=
    (match n.condition with
     | some c => if c.to_cypher == "" then [] else [c.to_cypher]
     | none => []) ++
    (match n.maxDegree with
     | some m =>
       let funcName := match n.degreeDirection with
         | some "in" => "apoc.node.degree.in"
         | some "out" => "apoc.node.degree.out"
         | _ => "apoc.node.degree"
       let args := [effVar.getD ""] ++
         (match n.degreeRelType with
          | some t => if t == "" then [] else [squote ++ t ++ squote]
          | none => [])
       [funcName ++ "(" ++ String.intercalate ", " args ++ ") < " ++ toString m]
     | none => [])
  let conditionStr :=
    if !conditions.isEmpty then " WHERE " ++ String.intercalate " AND " conditions
    else ""
  "(" ++ labelStr ++ propertiesStr ++ conditionStr ++ ")"

/-- `RelationshipPattern.to_cypher` (`ast/patterns/relationship_pattern.py`)
for a relationship without a `start_node` back-reference (the claims never
build one through the `start_node` chaining API, and the field does not
take part in pattern identity). -/
def RelPat.to_cypher (r : RelPat) : String :=
  let c0 := if optStrTruthy r.varName then r.varName.getD "" else ""
  let c1 := if optStrTruthy r.type then c0 ++ ":" ++ r.type.getD "" else c0
  let c2 :=
    if !r.properties.isEmpty then
      (if c1 == "" then "" else c1 ++ " ") ++ obrace ++ renderProps r.properties ++ cbrace
    else c1
  let relContent :=
    match r.condition with
    | some c => (if c2 == "" then "" else c2 ++ " ") ++ "WHERE " ++ c.to_cypher
    | none => c2
  if relContent == "" then
    if r.direction == "<" then "<--"
    else if r.direction == ">" then "-->"
    else "--"
  else
    if r.direction == "<" then "<-[" ++ relContent ++ "]-"
    else if r.direction == ">" then "-[" ++ relContent ++ "]->"
    else "-[" ++ relContent ++ "]-"

/-- One element's text inside `PathPattern.to_cypher`: fully anonymous
nodes and relationships take the literal shortcut branch (which inspects
the raw `variable` field, not the lazy one), everything else defers to the
element's own `to_cypher`. -/
def pathElemRender : PatternElem → String
  | .node n =>
    if n.varName == none && !n.labels.truthy && n.properties.isEmpty
        && n.condition == none then "()"
    else n.to_cypher
  | .rel r =>
    if r.varName == none && r.type == none && r.properties.isEmpty
        && r.condition == none then
      if r.direction == "<" then "<--"
      else if r.direction == ">" then "-->"
      else "--"
    else r.to_cypher

/-- `PathPattern.to_cypher` (`ast/patterns/path_pattern.py`). -/
def PathPat.to_cypher (p : PathPat) : String :=
  let pathStr := String.join (p.elements.map pathElemRender)
  let base :=
    if optStrTruthy p.varName then p.varName.getD "" ++ " = " ++ pathStr
    else pathStr
  match p.condition with
  | some c => base ++ " WHERE " ++ c.to_cypher
  | none => base

/-- `QuantifiedPathPattern` (`ast/patterns/quantified_path_pattern.py`). -/
structure QuantifiedPat where
  path : PathPat
  quantifier : String
  varName : Option String := none
deriving DecidableEq, Repr

/-- Whether the wrapped path is a single relationship — the case in which
`QuantifiedPathPattern.to_cypher` omits the outer parentheses. -/
def PathPat.isSingleRel (p : PathPat) : Bool :=
  match p.elements with
  | [.rel _] => true
  | _ => false

/-- `QuantifiedPathPattern.to_cypher`. -/
def QuantifiedPat.to_cypher (q : QuantifiedPat) : String :=
  let base :=
    if q.path.isSingleRel then q.path.to_cypher
    else "(" ++ q.path.to_cypher ++ ")"
  let withQuant := base ++ q.quantifier
  if optStrTruthy q.varName then q.varName.getD "" ++ " = " ++ withQuant
  else withQuant

/-- Python `f"{x or ''}"` on an optional int: `None` AND `0` are falsy and
render as the empty string. -/
def pyIntOrEmpty : Option Int → String
  | some n => if n = 0 then "" else toString n
  | none => ""

/-- `str(x) if x is not None else ''` on an optional int. -/
def pyIntOrEmptyStrict : Option Int → String
  | some n => toString n
  | none => ""

/-- `PathPattern.quantify` (`ast/patterns/path_pattern.py`): rejects
both-bounds-absent and `min > max`; the quantifier text is
`f"{{{min_hops or ''}, {max_hops or ''}}}"` — note the space after the
comma and the `or ''` zero-collapsing. -/
def PathPat.quantify (p : PathPat) (minHops maxHops : Option Int) :
    Except PyErr QuantifiedPat :=
  if minHops = none ∧ maxHops = none then .error .valueError
  else if minHops ≠ none ∧ maxHops ≠ none ∧
      minHops.getD 0 > maxHops.getD 0 then .error .valueError
  else .ok ⟨p, obrace ++ pyIntOrEmpty minHops ++ ", " ++ pyIntOrEmpty maxHops ++ cbrace, none⟩

/-- `PathPattern.one_or_more`. -/
def PathPat.oneOrMore (p : PathPat) : QuantifiedPat := ⟨p, "+", none⟩

/-- `PathPattern.zero_or_more`. -/
def PathPat.zeroOrMore (p : PathPat) : QuantifiedPat := ⟨p, "*", none⟩

/-- `RelationshipPattern.quantify`
(`ast/patterns/relationship_pattern.py`): rejects only
both-bounds-absent (no `min > max` check), quantifier text
`f"{{{min_str},{max_str}}}"` — no space, and `str(...) if ... is not None`
(zero is NOT collapsed). -/
def RelPat.quantify (r : RelPat) (minHops maxHops : Option Int) :
    Except PyErr QuantifiedPat :=
  if minHops = none ∧ maxHops = none then .error .valueError
  else .ok ⟨mkPathPattern [.rel r],
    obrace ++ pyIntOrEmptyStrict minHops ++ "," ++ pyIntOrEmptyStrict maxHops ++ cbrace,
    none⟩

/-- The argument of `PathPattern.concat` / `__add__`. -/
inductive ConcatArg where
  | path (p : PathPat)
  | node (n : NodePat)
  | rel (r : RelPat)
deriving DecidableEq, Repr

/-- Re-inject a materialised element into constructor-input form (used
when `concat` hands its combined element list back to `PathPattern`). -/
def PatternElem.toInput : PatternElem → PathInput
  | .node n => .node n
  | .rel r => .rel r

/-- `PathPattern.concat` (`ast/patterns/path_pattern.py`).  An empty
left path returns the other path unchanged (or wraps a single pattern);
the `if not other` early return in the source can never fire because the
pattern objects define no `__bool__`/`__len__` and are always truthy.  A
relationship-ended left path followed by a relationship-started right
path raises `ValueError`; after that check the source reads
`other.elements[0]`, which raises `IndexError` when the right path has no
elements.  Both nodes at the seam with `==`-equal `variable` fields
(`None == None` included) drop the right-hand duplicate.  The combined
list is handed back to the `PathPattern` constructor, which re-applies
the implicit-relationship fix-up; the result keeps the left path's
variable and has no condition. -/
def PathPat.concat (p : PathPat) (arg : ConcatArg) : Except PyErr PathPat :=
  match p.elements with
  | [] =>
    match arg with
    | .path q => .ok q
    | .node n => .ok (mkPathPattern [.node n])
    | .rel r => .ok (mkPathPattern [.rel r])
  | _ :: _ =>
    let other : PathPat :=
      match arg with
      | .path q => q
      | .node n => mkPathPattern [.node n]
      | .rel r => mkPathPattern [.rel r]
    match p.elements.getLast?, other.elements with
    | some (.rel _), .rel _ :: _ => .error .valueError
    | _, [] => .error .indexError
    | some (.node a), .node b :: restOther =>
      if a.varName == b.varName then
        .ok (mkPathPattern ((p.elements ++ restOther).map PatternElem.toInput) p.varName)
      else
        .ok (mkPathPattern ((p.elements ++ .node b :: restOther).map PatternElem.toInput)
          p.varName)
    | _, first :: restOther =>
      .ok (mkPathPattern ((p.elements ++ first :: restOther).map PatternElem.toInput)
        p.varName)

/-- `PathPattern.__add__` simply delegates to `concat`. -/
def PathPat.add (p : PathPat) (arg : ConcatArg) : Except PyErr PathPat :=
  p.concat arg

/-- `NodePattern(...)` direct construction including the labels part of
`__post_init__`. -/
def mkNodePattern (varName : Option String) (labels : LabelsInput)
    (properties : List (String × PyVal) := []) (condition : Option Expr := none) : NodePat :=
  { varName := varName, labels := normalizeLabels labels, properties := properties,
    condition := condition }

/-- `node(*labels, variable=None, **properties)` (`api.py`): when no
explicit `variable` is passed and the first positional argument is a
string, that argument becomes the variable; every remaining string label
is wrapped in `LabelAtom` before the tuple reaches `NodePattern` (so a
multi-label call hands `NodePattern` a tuple of label-expression
objects, not plain strings). -/
def nodeFn (labels : List LabelItem) (varName : Option String := none)
    (properties : List (String × PyVal) := []) : NodePat :=
  let varLabels : Option String × List LabelItem :=
    match varName, labels with
    | none, .str s :: rest => (some s, rest)
    | v, ls => (v, ls)
  let processed := varLabels.2.map
    (fun it => match it with | .str s => LabelItem.expr (.atom s) | .expr e => LabelItem.expr e)
  mkNodePattern varLabels.1 (.tuple processed) properties

/-! ## Lazy identifier allocator (`ast/patterns/node_pattern.py`) -/

/-- `_JAZZ_MUSICIANS`: the fixed ordered name pool, transcribed in source
order (duplicates included). -/
def jazzMusicians : List String :=
  ["bolden", "morton", "oliver", "armstrong", "bechet", "ory", "dodds", "noone",
   "tio", "perez", "picou", "bunk", "celestin", "piron", "robichaux", "trepagnier",
   "beiderbecke", "trumbauer", "mares", "rappolo", "brunies", "pollack", "teschemacher",
   "freeman", "tough", "sullivan", "spanier", "condon", "mckenzie", "lang",
   "johnson", "roberts", "blake", "waller", "hines", "wilson", "henderson", "redman",
   "carter", "hawkins", "smith", "miley", "nanton", "bigard", "hardwick",
   "handy", "williams", "cox", "bradford", "davenport", "lewis", "ammons", "yancey",
   "whiteman", "goldkette", "nichols", "dorsey", "goodman", "miller", "krupa",
   "berigan", "mole", "venuti", "signorelli", "rollini",
   "moten", "kirk", "williams", "page", "rushing", "basie", "luncford", "calloway",
   "rainey", "hunter", "spivey", "wallace", "hill", "cox", "henderson", "austin",
   "reinhardt", "grappelli", "coleman", "ellington", "mills", "miley", "anderson",
   "keppard", "ladnier", "brown", "stewart", "green", "singleton", "hall", "foster",
   "jackson", "russell", "dodson", "shoffner", "duhe", "barbarin", "marrero",
   "lofton", "brooks", "thomas", "cooper", "scott", "clark", "richardson", "parker",
   "bryant", "washington", "holmes", "bailey", "mitchell", "gibson", "reynolds",
   "watson", "hughes", "sanders", "coleman", "murphy", "harrison", "garrett"]

/-- `_get_next_variable_name` as a function of the current value of the
process-wide `_node_counter`: a pool name while the counter is inside the
pool, the numbered `jazzcat` fallback afterwards, prefixed with
`_node_`.  (The source also increments the counter; the increment is made
explicit at the call sites below.) -/
def getNextVariableName (counter : Nat) : String :=
  "_node_" ++
    (if h : counter < jazzMusicians.length then jazzMusicians.get ⟨counter, h⟩
     else "jazzcat" ++ toString (counter - jazzMusicians.length + 1))

/-- The heap of live `NodePattern` instances: Python object identity is
modelled as the index into this list, and the in-place
`object.__setattr__(self, '_lazy_variable', ...)` becomes `List.set`. -/
abbrev NodeHeap := List NodePat

/-- `NodePattern._ensure_variable` over the explicit heap/counter state:
an explicit `variable` wins, then a previously assigned lazy variable,
otherwise the next pool name is allocated, recorded on the instance and
returned.  (An out-of-range instance id returns the empty name and leaves
the state unchanged; it models no Python behaviour and is never used.) -/
def ensureVariable (heap : NodeHeap) (counter : Nat) (i : Nat) :
    String × NodeHeap × Nat :=
  match heap[i]? with
  | none => ("", heap, counter)
  | some n =>
    match n.varName with
    | some v => (v, heap, counter)
    | none =>
      match n.lazyVariable with
      | some lv => (lv, heap, counter)
      | none =>
        let generated := getNextVariableName counter
        (generated, heap.set i { n with lazyVariable := some generated }, counter + 1)

/-- `NodePattern.prop` over the explicit state: ensure a variable, then
build `Property(variable_name, property_name)`. -/
def nodePropRef (heap : NodeHeap) (counter : Nat) (i : Nat) (propertyName : String) :
    Expr × NodeHeap × Nat :=
  let r := ensureVariable heap counter i
  (.property r.1 propertyName, r.2.1, r.2.2)

/-- `NodePattern.__str__` over the explicit state: identical to
`_ensure_variable`. -/
def nodeStrRef (heap : NodeHeap) (counter : Nat) (i : Nat) :
    String × NodeHeap × Nat :=
  ensureVariable heap counter i

/-! ## Clause algebra and query assembly (`clauses/`, `api.py`) -/

/-- The `database` argument of a `USE` clause: a raw string or an
expression. -/
inductive UseDb where
  | str (s : String)
  | expr (e : Expr)
deriving DecidableEq, Repr

/-- A projection of a `WITH` clause: raw text or an
`(expression, alias)` pair. -/
inductive Projection where
  | str (s : String)
  | pair (e a : String)
deriving DecidableEq, Repr

/-- `OrderByExpression` (`ast/expressions/order_by_expression.py`). -/
structure OrderBySpec where
  field : String
  descending : Bool := false
deriving DecidableEq, Repr

/-- The `count` argument of `SKIP`/`LIMIT`: an int, a raw string, or an
expression. -/
inductive CountArg where
  | int (n : Int)
  | str (s : String)
  | expr (e : Expr)
deriving DecidableEq, Repr

/-- An argument of `CALL procedure`. -/
inductive ProcArg where
  | str (s : String)
  | expr (e : Expr)
deriving DecidableEq, Repr

/-- The `variables` argument of a `CALL` subquery. -/
inductive SubVars where
  | noneV
  | str (s : String)
  | list (vs : List String)
deriving DecidableEq, Repr

/-- A pattern as held by a `MATCH`/`OPTIONAL MATCH` clause. -/
inductive QPattern where
  | node (n : NodePat)
  | rel (r : RelPat)
  | path (p : PathPat)
  | qpath (q : QuantifiedPat)
deriving DecidableEq, Repr

/-- The clause AST: one constructor per clause class under `clauses/`.
`callSubquery` holds the inner builder's clause list (`QueryBuilder` is
just its ordered clause list). -/
inductive Clause where
  | use (database : UseDb)
  | matchC (patterns : List QPattern)
  | optionalMatch (patterns : List QPattern)
  | whereC (condition : Expr)
  | withC (projections : List Projection) (distinct : Bool)
  | returnC (projections : List String) (distinct : Bool)
  | groupBy (expressions : List String)
  | orderBy (expressions : List OrderBySpec)
  | skipC (count : CountArg)
  | limitC (count : CountArg)
  | unwind (expression : Expr) (varName : String)
  | callProcedure (procedureName : String) (arguments : List ProcArg)
      (optional : Bool) (yieldClause : Option (List (String × Option String) × Bool))
  | yieldC (columns : List (String × Option String)) (wildcard : Bool)
  | callSubquery (subquery : List Clause) (vars : SubVars) (optional : Bool)
  | next
deriving Repr

/-- Whether a clause class defines `to_cypher` WITH an `indent`
parameter.  `QueryBuilder.to_cypher` invokes every clause as
`clause.to_cypher(indent=indent)`; the classes below whose `to_cypher`
signature is `(self)` only — `MatchClause`, `OptionalMatchClause`,
`WhereClause`, `WithClause`, `ReturnClause`, `GroupByClause`,
`OrderByClause`, `SkipClause`, `LimitClause` — make that call raise
`TypeError: ... unexpected keyword argument 'indent'` before their body
runs. -/
def Clause.acceptsIndent : Clause → Bool
  | .use _ | .unwind _ _ | .callProcedure _ _ _ _ | .yieldC _ _
  | .callSubquery _ _ _ | .next => true
  | .matchC _ | .optionalMatch _ | .whereC _ | .withC _ _ | .returnC _ _
  | .groupBy _ | .orderBy _ | .skipC _ | .limitC _ => false

/-- The pagination kinds separated out by `QueryBuilder.to_cypher`. -/
def Clause.isPagination : Clause → Bool
  | .orderBy _ | .skipC _ | .limitC _ => true
  | _ => false

/-- The clause kinds whose presence suppresses the implicit `RETURN *`
(`ReturnClause`, `WithClause`, `CallSubqueryClause`). -/
def Clause.isSuppressor : Clause → Bool
  | .returnC _ _ | .withC _ _ | .callSubquery _ _ _ => true
  | _ => false

/-- The implicit `ReturnClause(["*"])` appended by the assembler. -/
def implicitReturn : Clause := .returnC ["*"] false

/-- The clause-list transformation performed by `QueryBuilder.to_cypher`
before rendering: (1) split off the pagination clauses, preserving order;
(2) stably sort them by the key `OrderBy ↦ 0, Skip ↦ 1, Limit ↦ 2`
(Python's `sorted` is stable, so on this three-valued key it yields
exactly the `OrderBy` clauses in order, then the `Skip` clauses, then the
`Limit` clauses); (3) append `Return{["*"]}` to the non-pagination group
when pagination is present and no `Return`/`With`/`CallSubquery` is; (4)
concatenate. -/
def assemble (cs : List Clause) : List Clause :=
  let pagination := cs.filter Clause.isPagination
  let others := cs.filter (fun c => !c.isPagination)
  let sortedPagination :=
    pagination.filter (fun c => match c with | .orderBy _ => true | _ => false) ++
    pagination.filter (fun c => match c with | .skipC _ => true | _ => false) ++
    pagination.filter (fun c => match c with | .limitC _ => true | _ => false)
  let others2 :=
    if !sortedPagination.isEmpty && !others.any Clause.isSuppressor then
      others ++ [implicitReturn]
    else others
  others2 ++ sortedPagination

mutual

/-- Subquery nesting depth of a clause (termination measure for the
renderer; not part of the Python source). -/
def Clause.depth : Clause → Nat
  | .callSubquery sub _ _ => 1 + depthList sub
  | _ => 0

/-- Maximum subquery nesting depth of a clause list. -/
def depthList : List Clause → Nat
  | [] => 0
  | c :: rest => max c.depth (depthList rest)

end

theorem depth_le_depthList {c : Clause} {cs : List Clause} (h : c ∈ cs) :
    c.depth ≤ depthList cs := by
  induction cs with
  | nil => cases h
  | cons d rest ih =>
    rcases List.mem_cons.mp h with h1 | h1
    · subst h1; exact le_max_left _ _
    · exact le_trans (ih h1) (le_max_right _ _)

theorem depthList_le {cs : List Clause} {d : Nat}
    (h : ∀ c ∈ cs, Clause.depth c ≤ d) : depthList cs ≤ d := by
  induction cs with
  | nil => simp [depthList]
  | cons c rest ih =>
    simp only [depthList, max_le_iff]
    exact ⟨h c (List.mem_cons_self _ _), ih fun c hc => h c (List.mem_cons_of_mem _ hc)⟩

theorem mem_assemble {c : Clause} {cs : List Clause} (h : c ∈ assemble cs) :
    c ∈ cs ∨ c = implicitReturn := by
  simp only [assemble] at h
  rcases List.mem_append.mp h with h1 | h1
  · by_cases hcond : (!(List.filter (fun c => match c with | .orderBy _ => true | _ => false)
        (cs.filter Clause.isPagination) ++
        List.filter (fun c => match c with | .skipC _ => true | _ => false)
        (cs.filter Clause.isPagination) ++
        List.filter (fun c => match c with | .limitC _ => true | _ => false)
        (cs.filter Clause.isPagination)).isEmpty &&
        !(cs.filter fun c => !c.isPagination).any Clause.isSuppressor) = true
    · rw [if_pos hcond] at h1
      rcases List.mem_append.mp h1 with h2 | h2
      · exact Or.inl (List.mem_of_mem_filter h2)
      · exact Or.inr (List.mem_singleton.mp h2)
    · rw [if_neg hcond] at h1
      exact Or.inl (List.mem_of_mem_filter h1)
  · rcases List.mem_append.mp h1 with h2 | h2
    · rcases List.mem_append.mp h2 with h3 | h3 <;>
        exact Or.inl (List.mem_of_mem_filter (List.mem_of_mem_filter h3))
    · exact Or.inl (List.mem_of_mem_filter (List.mem_of_mem_filter h2))

theorem depthList_assemble_le (cs : List Clause) :
    depthList (assemble cs) ≤ depthList cs := by
  refine depthList_le fun c hc => ?_
  rcases mem_assemble hc with h | h
  · exact depth_le_depthList h
  · subst h; simp [Clause.depth, implicitReturn]

/-- A `QueryBuilder` is its ordered clause list (`api.py`). -/
abbrev QueryBuilder := List Clause

/-- `YieldClause.to_cypher` (`clauses/yield_.py`). -/
def renderYield (columns : List (String × Option String)) (wildcard : Bool)
    (ind : String) : String :=
  if wildcard then ind ++ "YIELD *"
  else
    ind ++ "YIELD " ++ String.intercalate ", "
      (columns.map fun ca =>
        match ca.2 with
        | some al => if al == "" then ca.1 else ca.1 ++ " AS " ++ al
        | none => ca.1)

/-- The variable-scope text of `CallSubqueryClause.to_cypher`
(`clauses/call_subquery.py`). -/
def subVarsScope : SubVars → String
  | .noneV => "()"
  | .list [] => "()"
  | .str s => if s == "*" then "(*)" else "(" ++ s ++ ")"
  | .list vs => "(" ++ String.intercalate ", " vs ++ ")"

mutual

/-- `clause.to_cypher(indent=indent)` as invoked by
`QueryBuilder.to_cypher`.  The nine clause classes whose `to_cypher`
takes no `indent` parameter raise `TypeError` at the call itself (the
method body never runs); the remaining kinds render as in their
source modules (`use.py`, `unwind.py`, `call_procedure.py`, `yield_.py`,
`call_subquery.py`, `next_.py`), with a `CALL` subquery recursively
rendering its inner builder at `indent + "  "` and propagating its
exceptions. -/
def renderClause (c : Clause) (ind : String) : Except PyErr String :=
  match c with
  | .matchC _ | .optionalMatch _ | .whereC _ | .withC _ _ | .returnC _ _
  | .groupBy _ | .orderBy _ | .skipC _ | .limitC _ => .error .typeError
  | .use db =>
    .ok (ind ++ "USE " ++ (match db with | .str s => s | .expr e => e.to_cypher))
  | .unwind e v => .ok (ind ++ "UNWIND " ++ e.to_cypher ++ " AS " ++ v)
  | .callProcedure nm args opt y =>
    let kw := if opt then "OPTIONAL CALL" else "CALL"
    let argsStr := String.intercalate ", "
      (args.map fun a =>
        match a with
        | .str s => squote ++ s ++ squote
        | .expr e => e.to_cypher)
    let base := ind ++ kw ++ " " ++ nm ++ "(" ++ argsStr ++ ")"
    .ok (match y with
      | some yc => base ++ "\n" ++ renderYield yc.1 yc.2 ind
      | none => base)
  | .yieldC cols wc => .ok (renderYield cols wc ind)
  | .next => .ok (ind ++ "NEXT")
  | .callSubquery sub vars opt =>
    let kw := if opt then "OPTIONAL CALL" else "CALL"
    match QueryBuilder.to_cypher sub (ind ++ "  ") with
    | .error e => .error e
    | .ok body =>
      .ok (ind ++ kw ++ subVarsScope vars ++ " " ++ obrace ++ "\n" ++ body ++ "\n" ++
        ind ++ cbrace)
termination_by (c.depth, 2, 0)
decreasing_by
  simp only [Prod.lex_def, Clause.depth]
  omega

/-- The rendering loop of `QueryBuilder.to_cypher`: each assembled clause
in order, stopping at the first raised exception. -/
def renderParts (cs : List Clause) (ind : String) : Except PyErr (List String) :=
  match cs with
  | [] => .ok []
  | c :: rest =>
    match renderClause c ind with
    | .error e => .error e
    | .ok s =>
      match renderParts rest ind with
      | .error e => .error e
      | .ok ss => .ok (s :: ss)
termination_by (depthList cs, 3, cs.length)
decreasing_by
  · have h : Clause.depth c ≤ depthList (c :: rest) := by
      simp only [depthList]; exact le_max_left _ _
    rcases lt_or_eq_of_le h with h' | h'
    · exact Prod.Lex.left _ _ h'
    · rw [h']
      exact Prod.Lex.right _ (Prod.Lex.left _ _ (by omega))
  · have h : depthList rest ≤ depthList (c :: rest) := by
      simp only [depthList]; exact le_max_right _ _
    rcases lt_or_eq_of_le h with h' | h'
    · exact Prod.Lex.left _ _ h'
    · rw [h']
      exact Prod.Lex.right _ (Prod.Lex.right _ (by simp))

/-- `QueryBuilder.to_cypher` (`api.py`): assemble the clause list, render
every clause with the caller-supplied indent, join with newlines. -/
def QueryBuilder.to_cypher (qb : QueryBuilder) (ind : String := "") :
    Except PyErr String :=
  match renderParts (assemble qb) ind with
  | .error e => .error e
  | .ok parts => .ok (String.intercalate "\n" parts)
termination_by (depthList qb, 4, 0)
decreasing_by
  simp only [Prod.lex_def]
  have h := depthList_assemble_le qb
  omega

end

/-! ## Invariant predicates -/

/-- No two consecutive node elements (the path adjacency invariant). -/
def noAdjacentNodes : List PatternElem → Bool
  | .node _ :: .node _ :: _ => false
  | _ :: rest => noAdjacentNodes rest
  | [] => true

/-! ## Helper lemmas -/

theorem empty_append_str (s : String) : "" ++ s = s := by
  cases s; rfl

theorem insertImplicit_cons (e : PatternElem) (rest : List PatternElem) :
    ∃ t, insertImplicit (e :: rest) = e :: t := by
  cases rest with
  | nil => exact ⟨[], by cases e <;> rfl⟩
  | cons e2 rest2 =>
    cases e with
    | node n =>
      cases e2 with
      | node m => exact ⟨.rel anonRel :: insertImplicit (.node m :: rest2), rfl⟩
      | rel r => exact ⟨insertImplicit (.rel r :: rest2), rfl⟩
    | rel r => exact ⟨insertImplicit (e2 :: rest2), rfl⟩

theorem noAdjacentNodes_insertImplicit : ∀ xs, noAdjacentNodes (insertImplicit xs) = true
  | [] => by simp [insertImplicit, noAdjacentNodes]
  | [e] => by cases e <;> simp [insertImplicit, noAdjacentNodes]
  | .node n :: .node m :: rest => by
    have ih := noAdjacentNodes_insertImplicit (.node m :: rest)
    simpa [insertImplicit, noAdjacentNodes] using ih
  | .node n :: .rel r :: rest => by
    have ih := noAdjacentNodes_insertImplicit (.rel r :: rest)
    obtain ⟨t, ht⟩ := insertImplicit_cons (.rel r) rest
    rw [ht] at ih
    have hu : insertImplicit (.node n :: .rel r :: rest)
        = .node n :: insertImplicit (.rel r :: rest) := by
      simp [insertImplicit]
    rw [hu, ht]
    simpa [noAdjacentNodes] using ih
  | .rel r :: e2 :: rest => by
    have ih := noAdjacentNodes_insertImplicit (e2 :: rest)
    obtain ⟨t, ht⟩ := insertImplicit_cons e2 rest
    rw [ht] at ih
    have hu : insertImplicit (.rel r :: e2 :: rest)
        = .rel r :: insertImplicit (e2 :: rest) := by
      cases e2 <;> simp [insertImplicit]
    rw [hu, ht]
    cases e2 <;> simpa [noAdjacentNodes] using ih

/-! ## Claim theorems -/

/-- C4: every path built by the `PathPattern` constructor or by
`path(...)` satisfies the adjacency invariant — after flattening nested
paths, the materialised element list never holds two consecutive
`NodePattern`s, because an anonymous undirected relationship (which
renders as `--`) is inserted between every adjacent pair of nodes; in
particular two consecutive nodes materialise as
`node, anonymous relationship, node` and render with `--` between the
two node texts. -/
theorem C4_path_adjacency_invariant :
    (∀ (elems : List PathInput) (v : Option String) (c : Option Expr),
      noAdjacentNodes (mkPathPattern elems v c).elements = true)
    ∧ (∀ elems : List PathInput, noAdjacentNodes (pathFn elems).elements = true)
    ∧ (∀ n1 n2 : NodePat,
        (mkPathPattern [.node n1, .node n2]).elements
          = [.node n1, .rel anonRel, .node n2])
    ∧ RelPat.to_cypher anonRel = "--"
    ∧ pathElemRender (.rel anonRel) = "--"
    ∧ (∀ n1 n2 : NodePat, (mkPathPattern [.node n1, .node n2]).to_cypher
        = pathElemRender (.node n1) ++ "--" ++ pathElemRender (.node n2)) := by
  refine ⟨?_, ?_, ?_, by decide, by decide, ?_⟩
  · intro elems v c
    exact noAdjacentNodes_insertImplicit _
  · intro elems
    exact noAdjacentNodes_insertImplicit _
  · intro n1 n2
    rfl
  · intro n1 n2
    show String.join [pathElemRender (.node n1), "--", pathElemRender (.node n2)] = _
    simp only [String.join, List.foldl_cons, List.foldl_nil]
    rw [empty_append_str]

/-- C3 (code bug evaluated on the code): the live
`Literal.to_cypher` — the one in the `ast/expressions/` package, which
shadows the superseded flat module — wraps strings in DOUBLE quotes and
leaves single quotes unescaped, so `literal("O'Connor")` renders as
`"O'Connor"` rather than the claimed `'O\'Connor'` (which is what the
superseded module, the spec and the package's own tests produce);
booleans and `None` do render as claimed. -/
theorem C3_literal_eval :
    Literal.to_cypher (.str ("O" ++ squote ++ "Connor"))
      = dquote ++ "O" ++ squote ++ "Connor" ++ dquote
    ∧ Literal.to_cypher (.bool true) = "true"
    ∧ Literal.to_cypher (.bool false) = "false"
    ∧ Literal.to_cypher .none = "null"
    ∧ LiteralSuperseded.to_cypher (.str ("O" ++ squote ++ "Connor"))
        = squote ++ "O" ++ bslash ++ squote ++ "Connor" ++ squote
    ∧ dquote ++ "O" ++ squote ++ "Connor" ++ dquote
        ≠ squote ++ "O" ++ bslash ++ squote ++ "Connor" ++ squote := by
  refine ⟨by decide, rfl, rfl, rfl, by decide, by decide⟩

/-- C8 (code bug evaluated on the code): a `NodePattern` constructed
directly with a tuple of plain string labels stays colon-joined, but the
public `node(...)` constructor wraps every string label in `LabelAtom`
first, so `node("p", "Person", "User")` reaches `NodePattern` as a tuple
of label expressions, is folded into the `&`-expression
`(Person & User)`, and renders backtick-wrapped — not colon-joined as
the claim (and the package's own test asserting
`labels == ("Person", "User")`) requires. -/
theorem C8_node_labels_eval :
    (mkNodePattern (some "u") (.tuple [.str "User", .str "Admin"])).labels
      = .strings ["User", "Admin"]
    ∧ (mkNodePattern (some "u") (.tuple [.str "User", .str "Admin"])).to_cypher
        = "(u:User:Admin)"
    ∧ (nodeFn [.str "p", .str "Person", .str "User"]).labels
        = .expr (.andL (.atom "Person") (.atom "User"))
    ∧ (nodeFn [.str "p", .str "Person", .str "User"]).to_cypher
        = "(p:" ++ btick ++ "(Person & User)" ++ btick ++ ")" := by
  refine ⟨rfl, by decide, rfl, by decide⟩

/-- C10 counterexample: two `ComparisonExpression`s with the same
operator but structurally different children still compare equal under
the Python `==` operator (the children's own `__eq__` overloads return
truthy `ComparisonExpression` objects), refuting "equal exactly when ...
structurally equal children". -/
theorem C10_counterexample :
    truthyEq (.comparison (.property "a" "x") ">" (.lit (.int 1)))
        (.comparison (.property "b" "y") ">" (.lit (.int 2))) = true
    ∧ Expr.property "a" "x" ≠ Expr.property "b" "y"
    ∧ Expr.lit (.int 1) ≠ Expr.lit (.int 2) := by
  refine ⟨rfl, by decide, by decide⟩

theorem truthyEq_of_leaves {a b : Expr} (ha : a.isLeaf = true) (hb : b.isLeaf = true) :
    truthyEq a b = true := by
  cases a <;> cases b <;> simp_all [Expr.isLeaf, truthyEq, Expr.isExpression]

/-- C10 amended: composite expression nodes are built without ever
mutating their operands (`__and__`/`__or__`/`__invert__` return new
nodes embedding the operands unchanged), and equality under `==`
compares the composite variant and the operator string but not the
children structurally: with leaf children (Property, Variable,
Parameter, Literal), two `Comparison`s or two `Logical`s compare equal
iff their operator strings are equal (regardless of the children), any
two `Not`s compare equal, and nodes of different composite variants
never compare equal. -/
theorem C10_structural_equality_amended (x y u v : Expr) (op op' : String)
    (hx : x.isLeaf = true) (hy : y.isLeaf = true)
    (hu : u.isLeaf = true) (hv : v.isLeaf = true) :
    (truthyEq (.comparison x op u) (.comparison y op' v) = (op == op'))
    ∧ (truthyEq (.logical x op u) (.logical y op' v) = (op == op'))
    ∧ truthyEq (.notE x) (.notE y) = true
    ∧ truthyEq (.comparison x op u) (.logical y op' v) = false
    ∧ truthyEq (.logical x op u) (.notE y) = false
    ∧ truthyEq (.comparison x op u) (.notE y) = false
    ∧ Expr.andE x u = .logical x "AND" u
    ∧ Expr.orE x u = .logical x "OR" u
    ∧ Expr.invertE x = .notE x := by
  refine ⟨?_, ?_, ?_, ?_, ?_, ?_, rfl, rfl, rfl⟩
  case refine_3 =>
    rw [show truthyEq (.notE x) (.notE y) = truthyEq x y from rfl]
    exact truthyEq_of_leaves hx hy
  · rw [show truthyEq (.comparison x op u) (.comparison y op' v)
        = (truthyEq x y && (op == op') && truthyEq u v) from rfl,
      truthyEq_of_leaves hx hy, truthyEq_of_leaves hu hv]
    simp
  · rw [show truthyEq (.logical x op u) (.logical y op' v)
        = (truthyEq x y && (op == op') && truthyEq u v) from rfl,
      truthyEq_of_leaves hx hy, truthyEq_of_leaves hu hv]
    simp
  · rfl
  · rfl
  · rfl

/-- C10 witness: the amended equality behaviour at concrete inputs. -/
theorem C10_amended_witness :
    (Expr.property "p" "age").isLeaf = true ∧ (Expr.var "n").isLeaf = true
    ∧ (Expr.lit (.int 3)).isLeaf = true ∧ (Expr.param "q").isLeaf = true
    ∧ truthyEq (.comparison (.property "p" "age") ">" (.lit (.int 3)))
        (.comparison (.var "n") ">" (.param "q")) = (">" == ">") :=
  ⟨rfl, rfl, rfl, rfl,
    (C10_structural_equality_amended (.property "p" "age") (.var "n")
      (.lit (.int 3)) (.param "q") ">" ">" rfl rfl rfl rfl).1⟩

/-- C5 counterexample: concatenating an empty path onto a non-empty one
does not perform the claimed "concatenate the element lists" — the
source reads `other.elements[0]` after the relationship check and raises
`IndexError` on a right-hand path with no elements. -/
theorem C5_concat_counterexample :
    (mkPathPattern [PathInput.node {}]).concat (.path (mkPathPattern []))
      = .error .indexError := rfl

/-- C5 amended: for a non-empty right-hand operand, `concat` (and `+`,
which delegates to it) behaves as claimed — a shared seam node (equal
`variable` fields, `None == None` included) is dropped from the right so
it appears exactly once in the result and its rendering; otherwise the
element lists are concatenated and the adjacency fix-up re-applied; a
relationship appended to a relationship-ended path raises `ValueError`.
Concatenating an EMPTY right-hand path onto a non-empty path instead
raises `IndexError`. -/
theorem C5_concat_amended :
    (∀ (a b b' c : NodePat) (r1 r2 : RelPat) (v1 v2 : Option String),
      b.varName = b'.varName →
      (mkPathPattern [.node a, .rel r1, .node b] v1).concat
          (.path (mkPathPattern [.node b', .rel r2, .node c] v2))
        = .ok ⟨[.node a, .rel r1, .node b, .rel r2, .node c], v1, none⟩)
    ∧ (∀ (a b c : NodePat) (r1 r2 : RelPat),
      (⟨[.node a, .rel r1, .node b, .rel r2, .node c], none, none⟩ : PathPat).to_cypher
        = pathElemRender (.node a) ++ pathElemRender (.rel r1) ++ pathElemRender (.node b)
          ++ pathElemRender (.rel r2) ++ pathElemRender (.node c))
    ∧ (∀ (a b : NodePat) (v w : Option String),
      ¬ a.varName = b.varName →
      (mkPathPattern [.node a] v).concat (.path (mkPathPattern [.node b] w))
        = .ok ⟨[.node a, .rel anonRel, .node b], v, none⟩)
    ∧ (∀ (p : PathPat) (r rr : RelPat),
      p.elements.getLast? = some (.rel rr) →
      p.concat (.rel r) = .error .valueError)
    ∧ (∀ (p : PathPat) (arg : ConcatArg), p.add arg = p.concat arg) := by
  refine ⟨?_, ?_, ?_, ?_, fun p arg => rfl⟩
  · intro a b b' c r1 r2 v1 v2 hb
    have hbb : (b.varName == b'.varName) = true := by simp [hb]
    simp [PathPat.concat, mkPathPattern, flattenInputs, insertImplicit,
      PatternElem.toInput, hbb]
  · intro a b c r1 r2
    show String.join [pathElemRender (.node a), pathElemRender (.rel r1),
      pathElemRender (.node b), pathElemRender (.rel r2), pathElemRender (.node c)] = _
    simp only [String.join, List.foldl_cons, List.foldl_nil]
    rw [empty_append_str]
  · intro a b v w hab
    have hbb : (a.varName == b.varName) = false := by
      simpa using hab
    simp [PathPat.concat, mkPathPattern, flattenInputs, insertImplicit,
      PatternElem.toInput, hbb]
  · intro p r rr hlast
    rcases hpe : p.elements with _ | ⟨e, es⟩
    · rw [hpe] at hlast; simp at hlast
    · rw [hpe] at hlast
      simp only [PathPat.concat, hpe, hlast, mkPathPattern, flattenInputs, insertImplicit]

/-- C6 counterexample: `path(node()).quantify(2, 5)` renders with a
space after the comma — the quantifier text is built by
`f"{{{min_hops or ''}, {max_hops or ''}}}"` — so the result is
`(()){2, 5}`, which does not end with the claimed `){2,5}`. -/
theorem C6_quantifier_counterexample :
    (mkPathPattern [PathInput.node {}]).quantify (some 2) (some 5)
      = .ok ⟨mkPathPattern [PathInput.node {}], obrace ++ "2, 5" ++ cbrace, none⟩
    ∧ QuantifiedPat.to_cypher
        ⟨mkPathPattern [PathInput.node {}], obrace ++ "2, 5" ++ cbrace, none⟩
        = "(())" ++ obrace ++ "2, 5" ++ cbrace
    ∧ List.isSuffixOf (")" ++ obrace ++ "2,5" ++ cbrace).data
        ("(())" ++ obrace ++ "2, 5" ++ cbrace).data = false := by
  refine ⟨rfl, by decide, by decide⟩

/-- C6 amended: for positive bounds `0 < min ≤ max`,
`p.quantify(min, max)` succeeds with quantifier text `{min, max}` — a
space after the comma (and a zero bound collapses to the empty string via
`or ''`) — so the rendering ends with `){min, max}` for any path that is
not a single bare relationship; `.oneOrMore()` / `.zeroOrMore()` append
`+` / `*` after the parenthesised path text; and the outer parentheses
are omitted exactly when the wrapped path is a single relationship
element. -/
theorem C6_quantifier_formatting_amended (p : PathPat) (m M : Int)
    (h1 : 0 < m) (h2 : m ≤ M) :
    (p.quantify (some m) (some M)
      = .ok ⟨p, obrace ++ toString m ++ ", " ++ toString M ++ cbrace, none⟩)
    ∧ (∀ quant : String, (QuantifiedPat.mk p quant none).to_cypher
        = (if p.isSingleRel then p.to_cypher else "(" ++ p.to_cypher ++ ")") ++ quant)
    ∧ (p.isSingleRel = false →
      (QuantifiedPat.mk p (obrace ++ toString m ++ ", " ++ toString M ++ cbrace)
          none).to_cypher
        = "(" ++ p.to_cypher ++ ")" ++ (obrace ++ toString m ++ ", " ++ toString M ++ cbrace))
    ∧ p.oneOrMore.to_cypher
        = (if p.isSingleRel then p.to_cypher else "(" ++ p.to_cypher ++ ")") ++ "+"
    ∧ p.zeroOrMore.to_cypher
        = (if p.isSingleRel then p.to_cypher else "(" ++ p.to_cypher ++ ")") ++ "*" := by
  have hq : ∀ quant : String, (QuantifiedPat.mk p quant none).to_cypher
      = (if p.isSingleRel then p.to_cypher else "(" ++ p.to_cypher ++ ")") ++ quant := by
    intro quant
    simp [QuantifiedPat.to_cypher, optStrTruthy]
  refine ⟨?_, hq, ?_, hq "+", hq "*"⟩
  · have hm0 : ¬ (m = 0) := by omega
    have hM0 : ¬ (M = 0) := by omega
    have hlt : ¬ (M < m) := by omega
    simp [PathPat.quantify, pyIntOrEmpty, hm0, hM0, hlt]
  · intro hsr
    rw [hq _, hsr]
    simp

/-- C6 witness: the amended behaviour at a concrete two-node path and
bounds 2, 5. -/
theorem C6_quantifier_witness :
    (0:Int) < 2 ∧ (2:Int) ≤ 5 ∧
    (mkPathPattern [PathInput.node {}, PathInput.node {}]).quantify (some 2) (some 5)
      = .ok ⟨mkPathPattern [PathInput.node {}, PathInput.node {}],
          obrace ++ toString (2:Int) ++ ", " ++ toString (5:Int) ++ cbrace, none⟩ :=
  ⟨by decide, by decide,
    (C6_quantifier_formatting_amended (mkPathPattern [PathInput.node {}, PathInput.node {}])
      2 5 (by decide) (by decide)).1⟩

/-- C7 counterexample: `RelationshipPattern.quantify(5, 2)` succeeds
(quantifier `{5,2}`) even though `min > max` — the `min > max` check
exists only in `PathPattern.quantify` — refuting the claimed
raises-iff-condition "for every public entry point". -/
theorem C7_relationship_quantify_counterexample :
    RelPat.quantify {} (some 5) (some 2)
      = .ok ⟨mkPathPattern [PathInput.rel {}], obrace ++ "5,2" ++ cbrace, none⟩ := by
  have : obrace ++ pyIntOrEmptyStrict (some 5) ++ "," ++ pyIntOrEmptyStrict (some 2) ++ cbrace
      = obrace ++ "5,2" ++ cbrace := by decide
  simp [RelPat.quantify, this]

/-- C7 amended: `PathPattern.quantify` raises `ValueError` iff both
bounds are absent or both are present with `min > max`;
`RelationshipPattern.quantify` raises iff both bounds are absent (it
performs no `min > max` check). -/
theorem C7_quantify_error_conditions_amended :
    (∀ (p : PathPat) (m M : Option Int),
      (p.quantify m M = .error .valueError)
        ↔ ((m = none ∧ M = none) ∨ (∃ a b : Int, m = some a ∧ M = some b ∧ a > b)))
    ∧ (∀ (r : RelPat) (m M : Option Int),
      (r.quantify m M = .error .valueError) ↔ (m = none ∧ M = none)) := by
  constructor
  · intro p m M
    cases m with
    | none =>
      cases M with
      | none => simp [PathPat.quantify]
      | some b => simp [PathPat.quantify]
    | some a =>
      cases M with
      | none => simp [PathPat.quantify]
      | some b =>
        by_cases hab : a > b
        · simp [PathPat.quantify, hab]
        · simp [PathPat.quantify, hab]
  · intro r m M
    cases m with
    | none =>
      cases M with
      | none => simp [RelPat.quantify]
      | some b => simp [RelPat.quantify]
    | some a => cases M <;> simp [RelPat.quantify]

/-- C5 witness: the amended concatenation behaviour at concrete paths —
seam elision on the shared node `y`, and the `ValueError` on appending a
relationship to a relationship-ended path. -/
theorem C5_concat_witness :
    (({ varName := some "y" } : NodePat).varName
      = ({ varName := some "y" } : NodePat).varName)
    ∧ (mkPathPattern [.node { varName := some "x" },
          .rel { direction := ">", type := some "R" },
          .node { varName := some "y" }]).concat
        (.path (mkPathPattern [.node { varName := some "y" },
          .rel { direction := ">", type := some "S" },
          .node { varName := some "z" }]))
      = .ok ⟨[.node { varName := some "x" }, .rel { direction := ">", type := some "R" },
          .node { varName := some "y" }, .rel { direction := ">", type := some "S" },
          .node { varName := some "z" }], none, none⟩
    ∧ (mkPathPattern [PathInput.node {}, PathInput.rel {}]).elements.getLast?
        = some (.rel {})
    ∧ (mkPathPattern [PathInput.node {}, PathInput.rel {}]).concat (.rel {})
        = .error .valueError :=
  ⟨rfl, C5_concat_amended.1 _ _ _ _ _ _ none none rfl, rfl,
    C5_concat_amended.2.2.2.1 (mkPathPattern [PathInput.node {}, PathInput.rel {}]) {} {} rfl⟩

/-- C9: the lazy identifier allocator — on the first reference
(`_ensure_variable`, reached from both `prop(...)` and `str(...)`) to an
instance with no explicit and no lazy variable, the next pool name is
returned, recorded on that instance, and the shared counter advances; a
second reference to the same instance returns the same name without
touching the state; an explicitly named instance is returned unchanged;
the pool is the 125-name jazz list starting at `_node_bolden`, falling
back to `_node_jazzcat1` once exhausted; and a never-referenced
anonymous node renders with no identifier before the opening label
colon. -/
theorem C9_lazy_identifier_allocation :
    (∀ (heap : NodeHeap) (counter i : Nat) (n : NodePat) (pn : String),
      heap[i]? = some n → n.varName = none → n.lazyVariable = none →
      (ensureVariable heap counter i).1 = getNextVariableName counter
      ∧ (ensureVariable heap counter i).2.1
          = heap.set i { n with lazyVariable := some (getNextVariableName counter) }
      ∧ (ensureVariable heap counter i).2.2 = counter + 1
      ∧ (nodePropRef heap counter i pn).1
          = .property (getNextVariableName counter) pn
      ∧ nodeStrRef heap counter i = ensureVariable heap counter i
      ∧ ensureVariable (ensureVariable heap counter i).2.1
          (ensureVariable heap counter i).2.2 i
        = (getNextVariableName counter, (ensureVariable heap counter i).2.1,
            (ensureVariable heap counter i).2.2))
    ∧ (∀ (heap : NodeHeap) (counter i : Nat) (n : NodePat) (v : String),
      heap[i]? = some n → n.varName = some v →
      ensureVariable heap counter i = (v, heap, counter))
    ∧ getNextVariableName 0 = "_node_bolden"
    ∧ jazzMusicians.length = 125
    ∧ getNextVariableName 124 = "_node_garrett"
    ∧ getNextVariableName 125 = "_node_jazzcat1"
    ∧ (∀ n : NodePat, n.varName = none → n.lazyVariable = none → n.maxDegree = none →
        n.properties = [] → n.condition = none →
        n.to_cypher = "(" ++ (if n.labels.truthy then ":" ++ n.labels.render else "") ++ ")") := by
  refine ⟨?_, ?_, by set_option maxRecDepth 4000 in decide,
    by set_option maxRecDepth 4000 in decide, by set_option maxRecDepth 4000 in decide,
    by set_option maxRecDepth 4000 in decide, ?_⟩
  · intro heap counter i n pn hget hvar hlazy
    have hlen : i < heap.length := by
      rcases List.getElem?_eq_some.mp hget with ⟨h, _⟩
      exact h
    have h1 : ensureVariable heap counter i
        = (getNextVariableName counter,
            heap.set i { n with lazyVariable := some (getNextVariableName counter) },
            counter + 1) := by
      simp [ensureVariable, hget, hvar, hlazy]
    have hset : (heap.set i
        { n with lazyVariable := some (getNextVariableName counter) })[i]?
        = some { n with lazyVariable := some (getNextVariableName counter) } :=
      List.getElem?_set_eq_of_lt _ hlen
    refine ⟨by rw [h1], by rw [h1], by rw [h1], ?_, rfl, ?_⟩
    · simp [nodePropRef, h1]
    · rw [h1]
      simp only [ensureVariable, hset]
      simp [hvar]
  · intro heap counter i n v hget hvar
    simp [ensureVariable, hget, hvar]
  · intro n h1 h2 h3 h4 h5
    by_cases ht : n.labels.truthy = true
    · simp [NodePat.to_cypher, NodePat.effectiveVar, h1, h2, h3, h4, h5, optStrTruthy, ht,
        String.intercalate, String.intercalate.go]
    · simp [NodePat.to_cypher, NodePat.effectiveVar, h1, h2, h3, h4, h5, optStrTruthy, ht]

/-- C9 witness: a fresh anonymous instance on a one-element heap with
counter 0 is allocated `_node_bolden`, the instance records it, the
counter moves to 1. -/
theorem C9_lazy_identifier_witness :
    ([({} : NodePat)][0]? = some ({} : NodePat))
    ∧ (ensureVariable [({} : NodePat)] 0 0).1 = getNextVariableName 0
    ∧ (ensureVariable [({} : NodePat)] 0 0).2.2 = 0 + 1 :=
  ⟨rfl,
    (C9_lazy_identifier_allocation.1 [({} : NodePat)] 0 0 {} "age" rfl rfl rfl).1,
    (C9_lazy_identifier_allocation.1 [({} : NodePat)] 0 0 {} "age" rfl rfl rfl).2.2.1⟩

theorem renderClause_not_acceptsIndent (c : Clause) (ind : String)
    (hb : c.acceptsIndent = false) : renderClause c ind = .error .typeError := by
  cases c <;> simp_all [Clause.acceptsIndent, renderClause]

theorem bad_mem_assemble {c : Clause} {cs : List Clause} (hm : c ∈ cs)
    (hb : c.acceptsIndent = false) : c ∈ assemble cs := by
  simp only [assemble]
  by_cases hp : c.isPagination = true
  · refine List.mem_append_right _ ?_
    have hmem : c ∈ cs.filter Clause.isPagination := List.mem_filter.mpr ⟨hm, hp⟩
    cases c with
    | orderBy es =>
      exact List.mem_append_left _ (List.mem_append_left _ (List.mem_filter.mpr ⟨hmem, rfl⟩))
    | skipC n =>
      exact List.mem_append_left _ (List.mem_append_right _ (List.mem_filter.mpr ⟨hmem, rfl⟩))
    | limitC n =>
      exact List.mem_append_right _ (List.mem_filter.mpr ⟨hmem, rfl⟩)
    | use db => simp [Clause.isPagination] at hp
    | matchC ps => simp [Clause.isPagination] at hp
    | optionalMatch ps => simp [Clause.isPagination] at hp
    | whereC e => simp [Clause.isPagination] at hp
    | withC ps dt => simp [Clause.isPagination] at hp
    | returnC ps dt => simp [Clause.isPagination] at hp
    | groupBy es => simp [Clause.isPagination] at hp
    | unwind e v => simp [Clause.isPagination] at hp
    | callProcedure nm args opt y => simp [Clause.isPagination] at hp
    | yieldC cols wc => simp [Clause.isPagination] at hp
    | callSubquery sub vars opt => simp [Clause.isPagination] at hp
    | next => simp [Clause.isPagination] at hp
  · have hmem : c ∈ cs.filter (fun c => !c.isPagination) :=
      List.mem_filter.mpr ⟨hm, by simp_all⟩
    refine List.mem_append_left _ ?_
    by_cases hcond : (!(List.filter (fun c => match c with | .orderBy _ => true | _ => false)
        (cs.filter Clause.isPagination) ++
        List.filter (fun c => match c with | .skipC _ => true | _ => false)
        (cs.filter Clause.isPagination) ++
        List.filter (fun c => match c with | .limitC _ => true | _ => false)
        (cs.filter Clause.isPagination)).isEmpty &&
        !(cs.filter fun c => !c.isPagination).any Clause.isSuppressor) = true
    · rw [if_pos hcond]
      exact List.mem_append_left _ hmem
    · rw [if_neg hcond]
      exact hmem

theorem renderParts_error_of_mem_bad :
    ∀ (cs : List Clause) (ind : String), (∃ c ∈ cs, c.acceptsIndent = false) →
      ∃ e, renderParts cs ind = .error e := by
  intro cs ind h
  induction cs with
  | nil => obtain ⟨c, hc, _⟩ := h; cases hc
  | cons c rest ih =>
    obtain ⟨d, hd, hdb⟩ := h
    rcases List.mem_cons.mp hd with rfl | hdm
    · exact ⟨.typeError, by simp [renderParts, renderClause_not_acceptsIndent _ ind hdb]⟩
    · cases hrc : renderClause c ind with
      | error e => exact ⟨e, by simp [renderParts, hrc]⟩
      | ok s =>
        obtain ⟨e, he⟩ := ih ⟨d, hdm, hdb⟩
        exact ⟨e, by simp [renderParts, hrc, he]⟩

theorem render_error_typeError (d : Nat) :
    (∀ (c : Clause) (ind : String) (e : PyErr), c.depth ≤ d →
      renderClause c ind = .error e → e = .typeError)
    ∧ (∀ (cs : List Clause) (ind : String) (e : PyErr), depthList cs ≤ d →
      renderParts cs ind = .error e → e = .typeError)
    ∧ (∀ (cs : List Clause) (ind : String) (e : PyErr), depthList cs ≤ d →
      QueryBuilder.to_cypher cs ind = .error e → e = .typeError) := by
  induction d using Nat.strong_induction_on with
  | _ d ih =>
  have hclause : ∀ (c : Clause) (ind : String) (e : PyErr), c.depth ≤ d →
      renderClause c ind = .error e → e = .typeError := by
    intro c ind e hd hr
    cases c with
    | matchC ps => simp [renderClause] at hr; exact hr.symm
    | optionalMatch ps => simp [renderClause] at hr; exact hr.symm
    | whereC cnd => simp [renderClause] at hr; exact hr.symm
    | withC ps dt => simp [renderClause] at hr; exact hr.symm
    | returnC ps dt => simp [renderClause] at hr; exact hr.symm
    | groupBy es => simp [renderClause] at hr; exact hr.symm
    | orderBy es => simp [renderClause] at hr; exact hr.symm
    | skipC n => simp [renderClause] at hr; exact hr.symm
    | limitC n => simp [renderClause] at hr; exact hr.symm
    | use db => rw [renderClause.eq_def] at hr; simp at hr
    | unwind ex v => rw [renderClause.eq_def] at hr; simp at hr
    | callProcedure nm args opt y => rw [renderClause.eq_def] at hr; simp at hr
    | yieldC cols wc => rw [renderClause.eq_def] at hr; simp at hr
    | next => rw [renderClause.eq_def] at hr; simp at hr
    | callSubquery sub vars opt =>
      have hd' : depthList sub < d := by
        simp only [Clause.depth] at hd; omega
      rw [renderClause.eq_def] at hr
      cases hsub : QueryBuilder.to_cypher sub (ind ++ "  ") with
      | error e' =>
        simp [hsub] at hr
        subst hr
        exact (ih (depthList sub) hd').2.2 sub (ind ++ "  ") e' (le_refl _) hsub
      | ok body => simp [hsub] at hr
  have hparts : ∀ (cs : List Clause) (ind : String) (e : PyErr), depthList cs ≤ d →
      renderParts cs ind = .error e → e = .typeError := by
    intro cs
    induction cs with
    | nil => intro ind e _ hr; simp [renderParts] at hr
    | cons c rest ihl =>
      intro ind e hdl hr
      have hdc : c.depth ≤ d := by
        simp only [depthList, max_le_iff] at hdl; exact hdl.1
      have hdr : depthList rest ≤ d := by
        simp only [depthList, max_le_iff] at hdl; exact hdl.2
      cases hrc : renderClause c ind with
      | error e' =>
        have : e' = e := by simp [renderParts, hrc] at hr; exact hr
        subst this
        exact hclause c ind e' hdc hrc
      | ok s =>
        cases hrr : renderParts rest ind with
        | error e' =>
          have : e' = e := by simp [renderParts, hrc, hrr] at hr; exact hr
          subst this
          exact ihl ind e' hdr hrr
        | ok ss => simp [renderParts, hrc, hrr] at hr
  refine ⟨hclause, hparts, ?_⟩
  intro cs ind e hdl hr
  cases hrp : renderParts (assemble cs) ind with
  | error e' =>
    have : e' = e := by simp [QueryBuilder.to_cypher, hrp] at hr; exact hr
    subst this
    exact hparts (assemble cs) ind e' (le_trans (depthList_assemble_le cs) hdl) hrp
  | ok parts => simp [QueryBuilder.to_cypher, hrp] at hr

theorem toCypher_typeError_of_bad (qb : QueryBuilder) (ind : String)
    (h : ∃ c ∈ qb, c.acceptsIndent = false) :
    QueryBuilder.to_cypher qb ind = .error .typeError := by
  obtain ⟨c, hc, hb⟩ := h
  obtain ⟨e, he⟩ := renderParts_error_of_mem_bad (assemble qb) ind
    ⟨c, bad_mem_assemble hc hb, hb⟩
  have heq : e = .typeError :=
    (render_error_typeError (depthList (assemble qb))).2.1 _ ind e (le_refl _) he
  subst heq
  simp [QueryBuilder.to_cypher, he]

/-- C2: `QueryBuilder.to_cypher` invokes every clause as
`clause.to_cypher(indent=indent)`, so any builder whose clause list
contains a `Match`, `OptionalMatch`, `Where`, `With`, `Return`,
`GroupBy`, `OrderBy`, `Skip` or `Limit` clause — the classes whose
`to_cypher` takes no `indent` parameter — raises `TypeError` instead of
returning query text; conversely, rendering can only succeed when every
clause in the builder is of a kind whose `to_cypher` accepts the
`indent` keyword (`Use`, `Unwind`, `CallProcedure`, `Yield`,
`CallSubquery`, `Next`). -/
theorem C2_to_cypher_raises_TypeError :
    (∀ (qb : QueryBuilder) (ind : String), (∃ c ∈ qb, c.acceptsIndent = false) →
      QueryBuilder.to_cypher qb ind = .error .typeError)
    ∧ (∀ (qb : QueryBuilder) (ind : String) (s : String),
      QueryBuilder.to_cypher qb ind = .ok s → ∀ c ∈ qb, c.acceptsIndent = true) := by
  refine ⟨toCypher_typeError_of_bad, ?_⟩
  intro qb ind s hok c hc
  by_cases hb : c.acceptsIndent = true
  · exact hb
  · rw [toCypher_typeError_of_bad qb ind ⟨c, hc, by simpa using hb⟩] at hok
    cases hok

/-- C2 witness: a builder holding a single `MATCH` clause raises
`TypeError` when rendered. -/
theorem C2_witness :
    (∃ c ∈ ([Clause.matchC []] : QueryBuilder), c.acceptsIndent = false)
    ∧ QueryBuilder.to_cypher [Clause.matchC []] "" = .error .typeError :=
  ⟨⟨.matchC [], List.mem_singleton.mpr rfl, rfl⟩,
    C2_to_cypher_raises_TypeError.1 [Clause.matchC []] ""
      ⟨.matchC [], List.mem_singleton.mpr rfl, rfl⟩⟩

/-- C1 (code bug evaluated on the code): on the claim's own example
`match(node("p", "Person")).limit(10)`, the assembly steps do run —
the clause list is partitioned and becomes
`[MATCH, implicit RETURN *, LIMIT 10]` — but rendering step (4) then
calls `MatchClause.to_cypher(indent="")`, whose signature takes no
`indent`, so `to_cypher` raises `TypeError` instead of returning the
claimed `MATCH (p:Person)\nLIMIT 10\nRETURN *` text (which is also what
the package's own `test_limit_from_match_clause` expects). -/
theorem C1_assembly_typeError_eval :
    assemble [Clause.matchC [.node (nodeFn [.str "p", .str "Person"])],
        Clause.limitC (.int 10)]
      = [Clause.matchC [.node (nodeFn [.str "p", .str "Person"])], implicitReturn,
          Clause.limitC (.int 10)]
    ∧ QueryBuilder.to_cypher
        [Clause.matchC [.node (nodeFn [.str "p", .str "Person"])],
          Clause.limitC (.int 10)] ""
      = .error .typeError :=
  ⟨rfl, toCypher_typeError_of_bad _ _ ⟨_, List.mem_cons_self _ _, rfl⟩⟩

end SuperSniffle
